import Mathlib

/-!
Verification development for the codewave-ui CLI test-suite orchestrator
(`src/index.ts`).  The suite executor (the async closure pushed onto
`runners`, source lines 144-253) and the batch scheduler (lines 256-265)
are embedded shallowly: each suite run is interpreted, from an environment
that records which hooks / bodies / screenshots throw and what they throw,
into a linear trace of primitive actions plus an optional escaping thrown
value (a rejected promise).  Run-record state is obtained by folding the
trace with `applyAction`.

External collaborators from `@codewave-ui/core` (run-record methods
`startNow`/`endNow`/`generateDuration`, `WebDriver.startDriver` /
`destroyDriver`, the event manager, the duration formatter) are not in
this repository's `src/`; their effect on the run record is modelled from
the spec where noted on each definition.
-/

namespace Codewave

/-- Test status values of the run-record model.  `SUCCESS` and `FAILED`
are assigned in `src/index.ts`; `PENDING`, `NOT_STARTED`, `RUNNING` and
`SKIPPED` are the remaining states named by the spec's state machines. -/
inductive TestStatus where
  | PENDING
  | NOT_STARTED
  | RUNNING
  | SUCCESS
  | FAILED
  | SKIPPED
  deriving DecidableEq, Repr

/-- A JavaScript thrown value as far as the orchestrator can observe it:
whether it is an `Error` instance (what `assertIsError` tests) and its
message.  Stack traces are abstracted away. -/
structure Thrown where
  isError : Bool
  message : String
  deriving DecidableEq, Repr

/-- The four lifecycle event kinds of `EventType` used by the executor. -/
inductive EventType where
  | BEFORE_SUITE
  | BEFORE_CASE
  | AFTER_CASE
  | AFTER_SUITE
  deriving DecidableEq, Repr

/-- Primitive observable steps of one suite run.  Case-level actions carry
the index of the test case in flight (the source identifies the case via
`currentRunner.currentTestCaseIndex` inside the emitted payload; case-level
`emit`s are tagged `some i`, suite-level ones `none`).  `caseSetDurationZero`
is the assignment `duration = convertTimeMillisToPrettyString(0)` with the
external pretty formatter abstracted to the value zero. -/
inductive Action where
  | runnerStartNow
  | runnerEndNow
  | runnerGenDuration
  | runnerSetStatus (s : TestStatus)
  | setCurrentIndex (i : Nat)
  | caseStartNow (i : Nat)
  | caseEndNow (i : Nat)
  | caseGenDuration (i : Nat)
  | caseSetDurationZero (i : Nat)
  | caseSetStatus (i : Nat) (s : TestStatus)
  | caseSetException (i : Nat) (msg : String)
  | caseSetScreenshot (i : Nat) (p : String)
  | emit (e : EventType) (i : Option Nat)
  | driverStart (i : Nat)
  | driverDestroy (i : Nat)
  | logError (msg : String)
  | logWarn (msg : String)
  | logInfo (msg : String)
  deriving DecidableEq, Repr

/-- Failure environment of one test case: the `enabled` flag of its
definition, and for each fallible external call the value it throws
(`none` means the call completes normally). -/
structure CaseEnv where
  enabled : Bool
  beforeCase : Option Thrown
  body : Option Thrown
  screenshot : Option Thrown
  afterCase : Option Thrown
  deriving DecidableEq, Repr

/-- Failure environment of one suite run: the `BEFORE_SUITE` emission, the
ordered test cases, and the `AFTER_SUITE` emission. -/
structure SuiteEnv where
  beforeSuite : Option Thrown
  cases : List CaseEnv
  afterSuite : Option Thrown
  deriving DecidableEq, Repr

/-- Outcome of running a code region: the trace of actions it performed and
the value escaping it, `none` when it completes normally and `some t` when
the thrown value `t` propagates past it (a rejected promise at top level). -/
structure RunOut where
  trace : List Action
  escape : Option Thrown
  deriving DecidableEq, Repr

/-- A region that completes normally with the given trace. -/
def RunOut.ok (tr : List Action) : RunOut := ⟨tr, none⟩

/-- A region whose trace is `tr` and which then throws `t`. -/
def RunOut.throw (tr : List Action) (t : Thrown) : RunOut := ⟨tr, some t⟩

/-- Sequencing: run `a`; if it escaped, `b` never runs. -/
def RunOut.seq (a b : RunOut) : RunOut :=
  match a.escape with
  | some _ => a
  | none => ⟨a.trace ++ b.trace, b.escape⟩

/-- A `try | catch` region: if the body escapes with `t`, the handler runs
on `t` (and may itself escape, e.g. by the rethrow in `assertIsError`). -/
def tryCatch (body : RunOut) (handler : Thrown → RunOut) : RunOut :=
  match body.escape with
  | none => body
  | some t => ⟨body.trace ++ (handler t).trace, (handler t).escape⟩

/-- Screenshot path attached to a failed case.  Modelled abstractly as a
function of the case index; the source builds it from the log folder and a
millisecond timestamp (`loggerFactory.logFolder`, `now + '.png'`). -/
def ssPath (i : Nat) : String := toString i ++ ".png"

/-- Log line of the disabled-case branch, abstracted to the case index
(the source interpolates the case's name and id). -/
def skipMsg (i : Nat) : String :=
  "Test case " ++ toString i ++ " is disabled! Skipping test execution..."

/-- The `catch (btcError)` handler, `src/index.ts` lines 212-219:
`assertIsError` rethrows a non-Error value; otherwise the error is logged,
the case's duration is set to zero and the driver is destroyed. -/
def btcHandler (i : Nat) (t : Thrown) : RunOut :=
  if t.isError then
    RunOut.ok [.logError t.message, .caseSetDurationZero i, .driverDestroy i]
  else
    RunOut.throw [] t

/-- The screenshot `try | catch`, lines 199-208: on success the path is
attached to the case record; a thrown `Error` is logged as a warning; a
thrown non-Error is rethrown by `assertIsError`. -/
def screenshotTry (i : Nat) (sc : Option Thrown) : RunOut :=
  tryCatch
    (match sc with
     | none => RunOut.ok [.caseSetScreenshot i (ssPath i)]
     | some s => RunOut.throw [] s)
    (fun s =>
      if s.isError then RunOut.ok [.logWarn s.message] else RunOut.throw [] s)

/-- The `catch (tcError)` handler, lines 188-211: for an `Error` the case
gets end time, duration, `FAILED` status and the captured message, a
screenshot is attempted, then the runner is marked `FAILED` and the error
logged; a non-Error is rethrown by `assertIsError`. -/
def tcHandler (i : Nat) (c : CaseEnv) (t : Thrown) : RunOut :=
  if t.isError then
    (RunOut.ok [.caseEndNow i, .caseGenDuration i,
        .caseSetStatus i .FAILED, .caseSetException i t.message]).seq
      ((screenshotTry i c.screenshot).seq
        (RunOut.ok [.runnerSetStatus .FAILED, .logError t.message]))
  else
    RunOut.throw [] t

/-- The inner `try` running the test body, lines 180-211: `startNow` on
the case record, then the body; on success the `SUCCESS` status, end time
and duration are recorded; a thrown value goes to `tcHandler`. -/
def innerTry (i : Nat) (c : CaseEnv) : RunOut :=
  tryCatch
    (match c.body with
     | none => RunOut.ok [.caseStartNow i, .caseSetStatus i .SUCCESS,
         .caseEndNow i, .caseGenDuration i]
     | some t => RunOut.throw [.caseStartNow i] t)
    (tcHandler i c)

/-- Body of the outer `try`, lines 172-211: emit `BEFORE_CASE`, then run
the inner body region.  A throwing emission escapes to `btcHandler`. -/
def outerTryBlock (i : Nat) (c : CaseEnv) : RunOut :=
  match c.beforeCase with
  | some t => RunOut.throw [.emit .BEFORE_CASE (some i)] t
  | none => (RunOut.ok [.emit .BEFORE_CASE (some i)]).seq (innerTry i c)

/-- The `AFTER_CASE` emission and its catch, lines 221-231: a thrown
`Error` is only logged; a non-Error is rethrown by `assertIsError`. -/
def afterCasePart (i : Nat) (c : CaseEnv) : RunOut :=
  tryCatch
    (match c.afterCase with
     | none => RunOut.ok [.emit .AFTER_CASE (some i)]
     | some t => RunOut.throw [.emit .AFTER_CASE (some i)] t)
    (fun t =>
      if t.isError then RunOut.ok [.logError t.message] else RunOut.throw [] t)

/-- One iteration of the test-case loop, lines 164-239.  Enabled case:
set the current index, start a driver (`new WebDriver` + `startDriver`,
modelled as completing normally), run the guarded hook/body sequence,
emit `AFTER_CASE`, finally destroy the driver.  Disabled case: set the
current index and log the skip message only.  Driver destruction is
modelled from the spec: `destroyDriver` (in `@codewave-ui/core`, not in
this repository's `src/`) must tolerate a second release of an already
released handle without error, so it is a non-throwing action. -/
def runCase (i : Nat) (c : CaseEnv) : RunOut :=
  if c.enabled then
    (RunOut.ok [.setCurrentIndex i, .driverStart i]).seq
      ((tryCatch (outerTryBlock i c) (btcHandler i)).seq
        ((afterCasePart i c).seq (RunOut.ok [.driverDestroy i])))
  else
    RunOut.ok [.setCurrentIndex i, .logInfo (skipMsg i)]

/-- The `for (const [index, runner] of currentRunner.testCases.entries())`
loop, starting at index `i`. -/
def runCasesFrom (i : Nat) : List CaseEnv → RunOut
  | [] => RunOut.ok []
  | c :: rest => (runCase i c).seq (runCasesFrom (i + 1) rest)

/-- The final `try` block, lines 241-252: record the runner's end time and
duration, emit `AFTER_SUITE`; a thrown `Error` is only logged, a non-Error
is rethrown by `assertIsError`. -/
def afterSuitePart (e : SuiteEnv) : RunOut :=
  tryCatch
    (match e.afterSuite with
     | none => RunOut.ok [.runnerEndNow, .runnerGenDuration,
         .emit .AFTER_SUITE none]
     | some t => RunOut.throw [.runnerEndNow, .runnerGenDuration,
         .emit .AFTER_SUITE none] t)
    (fun t =>
      if t.isError then RunOut.ok [.logError t.message] else RunOut.throw [] t)

/-- The whole suite-executor thunk pushed onto `runners`, lines 144-253:
`startNow` on the runner, emit `BEFORE_SUITE` (on a thrown `Error`: log,
record end time and duration, and `return` normally; on a thrown
non-Error: `assertIsError` rethrows and the promise rejects), then the
test-case loop and the after-suite block. -/
def runSuite (e : SuiteEnv) : RunOut :=
  match e.beforeSuite with
  | some t =>
    if t.isError then
      RunOut.ok [.runnerStartNow, .emit .BEFORE_SUITE none,
        .logError t.message, .runnerEndNow, .runnerGenDuration]
    else
      RunOut.throw [.runnerStartNow, .emit .BEFORE_SUITE none] t
  | none =>
    (RunOut.ok [.runnerStartNow, .emit .BEFORE_SUITE none]).seq
      ((runCasesFrom 0 e.cases).seq (afterSuitePart e))

/-- Mutable per-case run record (`TestCaseRunRecord`).  The record type and
its `startNow`/`endNow`/`generateDuration` methods live in
`@codewave-ui/core`; modelled from the spec: a case starts `PENDING`,
`startNow` marks it `RUNNING` and records the start time, `endNow` records
the end time, `generateDuration` stores end minus start.  Times are drawn
from a logical clock that ticks once per action. -/
structure CaseRecord where
  status : TestStatus := .PENDING
  startTime : Option Nat := none
  endTime : Option Nat := none
  duration : Option Nat := none
  exception : Option String := none
  screenshot : Option String := none
  deriving DecidableEq, Repr

/-- Mutable suite run record (`SuiteRunRecord` / the "Runner").  Modelled
from the spec: it starts `NOT_STARTED`, `startNow` marks it `RUNNING` and
records the start time, `endNow` records the end time only, and
`generateDuration` stores end minus start. -/
structure RunnerState where
  status : TestStatus := .NOT_STARTED
  startTime : Option Nat := none
  endTime : Option Nat := none
  duration : Option Nat := none
  currentTestCaseIndex : Nat := 0
  testCases : List CaseRecord := []
  clock : Nat := 0
  deriving DecidableEq, Repr

/-- Update the record at position `i`, leaving the rest of the list (and a
too-short list) unchanged. -/
def updAt : Nat → (CaseRecord → CaseRecord) → List CaseRecord → List CaseRecord
  | _, _, [] => []
  | 0, f, c :: rest => f c :: rest
  | n + 1, f, c :: rest => c :: updAt n f rest

/-- Difference of two optional times, for `generateDuration`. -/
def optDiff : Option Nat → Option Nat → Option Nat
  | some e, some s => some (e - s)
  | _, _ => none

/-- Effect of one primitive action on the run record.  Emissions, driver
calls and log lines do not mutate the record; every action advances the
logical clock. -/
def applyAction (st : RunnerState) (a : Action) : RunnerState :=
  let st := { st with clock := st.clock + 1 }
  match a with
  | .runnerStartNow => { st with status := .RUNNING, startTime := some st.clock }
  | .runnerEndNow => { st with endTime := some st.clock }
  | .runnerGenDuration => { st with duration := optDiff st.endTime st.startTime }
  | .runnerSetStatus s => { st with status := s }
  | .setCurrentIndex i => { st with currentTestCaseIndex := i }
  | .caseStartNow i =>
    { st with testCases := updAt i (fun c => { c with status := .RUNNING, startTime := some st.clock }) st.testCases }
  | .caseEndNow i =>
    { st with testCases := updAt i (fun c => { c with endTime := some st.clock }) st.testCases }
  | .caseGenDuration i =>
    { st with testCases := updAt i (fun c => { c with duration := optDiff c.endTime c.startTime }) st.testCases }
  | .caseSetDurationZero i =>
    { st with testCases := updAt i (fun c => { c with duration := some 0 }) st.testCases }
  | .caseSetStatus i s =>
    { st with testCases := updAt i (fun c => { c with status := s }) st.testCases }
  | .caseSetException i m =>
    { st with testCases := updAt i (fun c => { c with exception := some m }) st.testCases }
  | .caseSetScreenshot i p =>
    { st with testCases := updAt i (fun c => { c with screenshot := some p }) st.testCases }
  | .emit _ _ => st
  | .driverStart _ => st
  | .driverDestroy _ => st
  | .logError _ => st
  | .logWarn _ => st
  | .logInfo _ => st

/-- Fresh run record for a suite with `n` cases: runner `NOT_STARTED`, one
`PENDING` case record per case. -/
def initState (n : Nat) : RunnerState :=
  { testCases := List.replicate n {} }

/-- Run record left by folding a trace prefix over the fresh state. -/
def stateAfter (n : Nat) (tr : List Action) : RunnerState :=
  tr.foldl applyAction (initState n)

/-- Final run record of a whole suite run. -/
def finalState (e : SuiteEnv) : RunnerState :=
  stateAfter e.cases.length (runSuite e).trace

/-- Check that an optional thrown value, if present, is an `Error`
instance (so `assertIsError` passes it through). -/
def errOnly : Option Thrown → Bool
  | none => true
  | some t => t.isError

/-- All potential throws of one case are `Error` instances. -/
def CaseEnv.errorsOnly (c : CaseEnv) : Bool :=
  errOnly c.beforeCase && errOnly c.body && errOnly c.screenshot && errOnly c.afterCase

section Scheduler

variable {α : Type}

/-- Fueled worker for `chunks`; the fuel only guarantees termination, any
fuel at least the list's length gives the loop's behaviour. -/
def chunksAux (w : Nat) : Nat → List α → List (List α)
  | 0, _ => []
  | _ + 1, [] => []
  | fuel + 1, x :: xs => (x :: xs).take w :: chunksAux w fuel ((x :: xs).drop w)

/-- The batch scheduler's slicing, `src/index.ts` lines 256-258: the loop
`for (let i = 0; i < runners.length; i += parallelRun)` with
`runners.slice(i, i + parallelRun)` partitions the runner list into
consecutive slices of width `w`. -/
def chunks (w : Nat) (l : List α) : List (List α) := chunksAux w l.length l

end Scheduler

/-- Settlement logging of one batch, lines 259-264: `Promise.allSettled`
collects every member's outcome and each rejected member's reason is
logged with `console.error`. -/
def runBatchLogs (b : List RunOut) : List Thrown :=
  b.filterMap RunOut.escape

/-- All rejection logs of the whole scheduler run, batch by batch. -/
def runSchedulerLogs (w : Nat) (rs : List RunOut) : List Thrown :=
  ((chunks w rs).map runBatchLogs).flatten

/-- The width the scheduler ends up using, lines 70 and 115: `parallelRun`
starts at `1` and is overwritten by `config.parallelExecution` once per
discovered suite file, so the loop leaves the value of the last file. -/
def finalParallelRun (ps : List Nat) : Nat :=
  ps.foldl (fun _ p => p) 1

/-- The batches one CLI invocation runs, given the `parallelExecution`
value of each discovered suite's config (in discovery order) and the
runner thunks: a single global width is used for all slices. -/
def invocationBatches (ps : List Nat) (rs : List RunOut) : List (List RunOut) :=
  chunks (finalParallelRun ps) rs

/-- Scheduler-level events for the batch barrier: a thunk being invoked
(`runner()` inside `map`) and its promise settling. -/
inductive SchedEv where
  | start (i : Nat)
  | settle (i : Nat)
  deriving DecidableEq, Repr

/-- Events of one batch: the `map` invokes every member in order, then
`Promise.allSettled` waits until each has settled; within the batch the
settle order is arbitrary, so it is a separate argument. -/
def batchEvents (starts settles : List Nat) : List SchedEv :=
  starts.map SchedEv.start ++ settles.map SchedEv.settle

/-- Whole-run scheduler trace: batches run strictly one after another,
each contributing all its starts and then all its settles. -/
def schedTrace (pairs : List (List Nat × List Nat)) : List SchedEv :=
  (pairs.map (fun p => batchEvents p.1 p.2)).flatten

/-- Concrete input for C1: a suite whose `BEFORE_SUITE` emission throws an
`Error`, with one enabled, otherwise well-behaved test case. -/
def c1env : SuiteEnv := ⟨some ⟨true, "boom"⟩, [⟨true, none, none, none, none⟩], none⟩

/-- Concrete input for C4: a suite with a single disabled test case. -/
def c4env : SuiteEnv := ⟨none, [⟨false, none, none, none, none⟩], none⟩

/-- A fresh `PENDING` test-case run record. -/
def blankCase : CaseRecord := {}

/-- Concrete input for the C3 counterexample: an enabled case whose
`BEFORE_CASE` emission throws a non-Error value. -/
def c3cex : CaseEnv := ⟨true, some ⟨false, "bc-string"⟩, none, none, none⟩

/-- Concrete input for the C6 counterexample: a suite with one enabled
case whose body throws a non-Error value (e.g. a plain string). -/
def c6env : SuiteEnv := ⟨none, [⟨true, none, some ⟨false, "thrown-string"⟩, none, none⟩], none⟩

/-- Concrete input for the C7 counterexample: an enabled case whose body
throws an `Error` and whose screenshot capture throws a non-Error. -/
def c7cex : CaseEnv := ⟨true, none, some ⟨true, "boom"⟩, some ⟨false, "ss-x"⟩, none⟩

/-- Concrete input for the C8 counterexample: an enabled case whose body
throws a non-Error value. -/
def c8cex : CaseEnv := ⟨true, none, some ⟨false, "tb-x"⟩, none, none⟩

/-- Syntactic check that an action cannot change the runner's status away
from `FAILED`: the only actions that write the runner status are
`runnerStartNow` and explicit `runnerSetStatus` assignments. -/
def preservesFailed : Action → Bool
  | .runnerStartNow => false
  | .runnerSetStatus s => s == .FAILED
  | _ => true

/-- A trace none of whose actions can revert a `FAILED` runner status. -/
def statusSafe (l : List Action) : Bool := l.all preservesFailed

/-- Concrete input for the C9 witness: a suite with one enabled case whose
body throws an `Error`, so the runner is marked `FAILED` mid-run. -/
def c9env : SuiteEnv := ⟨none, [⟨true, none, some ⟨true, "tb9"⟩, none, none⟩], none⟩

/-! Reduction lemmas for the run-outcome combinators, used to normalize
interpreter traces in the proofs below. -/

@[simp] theorem ok_mk (tr : List Action) : RunOut.ok tr = ⟨tr, none⟩ := rfl

@[simp] theorem throw_mk (tr : List Action) (t : Thrown) : RunOut.throw tr t = ⟨tr, some t⟩ := rfl

@[simp] theorem seq_none (tr : List Action) (b : RunOut) :
    RunOut.seq ⟨tr, none⟩ b = ⟨tr ++ b.trace, b.escape⟩ := rfl

@[simp] theorem seq_some (tr : List Action) (t : Thrown) (b : RunOut) :
    RunOut.seq ⟨tr, some t⟩ b = ⟨tr, some t⟩ := rfl

@[simp] theorem tryCatch_none (tr : List Action) (h : Thrown → RunOut) :
    tryCatch ⟨tr, none⟩ h = ⟨tr, none⟩ := rfl

@[simp] theorem tryCatch_some (tr : List Action) (t : Thrown) (h : Thrown → RunOut) :
    tryCatch ⟨tr, some t⟩ h = ⟨tr ++ (h t).trace, (h t).escape⟩ := rfl

section SchedulerLemmas

variable {α : Type}

theorem chunksAux_congr {w : Nat} (hw : 1 ≤ w) :
    ∀ (f1 f2 : Nat) (l : List α), l.length ≤ f1 → l.length ≤ f2 →
      chunksAux w f1 l = chunksAux w f2 l := by
  intro f1
  induction f1 with
  | zero =>
    intro f2 l h1 _
    have hl : l = [] := List.eq_nil_of_length_eq_zero (Nat.le_zero.mp h1)
    subst hl
    cases f2 <;> rfl
  | succ f ih =>
    intro f2 l h1 h2
    cases l with
    | nil => cases f2 <;> rfl
    | cons x xs =>
      cases f2 with
      | zero => simp at h2
      | succ f2' =>
        simp only [chunksAux]
        congr 1
        have hd : ((x :: xs).drop w).length = (x :: xs).length - w := List.length_drop ..
        simp only [List.length_cons] at h1 h2 hd
        apply ih
        · omega
        · omega

theorem chunks_cons {w : Nat} (hw : 1 ≤ w) (x : α) (xs : List α) :
    chunks w (x :: xs) = (x :: xs).take w :: chunks w ((x :: xs).drop w) := by
  show chunksAux w (x :: xs).length (x :: xs) = _
  simp only [List.length_cons, chunksAux]
  congr 1
  apply chunksAux_congr hw
  · have hd : ((x :: xs).drop w).length = (x :: xs).length - w := List.length_drop ..
    simp only [List.length_cons] at hd
    omega
  · exact Nat.le_refl _

theorem chunks_flatten_aux {w : Nat} (hw : 1 ≤ w) :
    ∀ (fuel : Nat) (l : List α), l.length ≤ fuel → (chunks w l).flatten = l := by
  intro fuel
  induction fuel with
  | zero =>
    intro l h
    have hl : l = [] := List.eq_nil_of_length_eq_zero (Nat.le_zero.mp h)
    subst hl
    rfl
  | succ f ih =>
    intro l h
    cases l with
    | nil => rfl
    | cons x xs =>
      rw [chunks_cons hw, List.flatten_cons, ih]
      · exact List.take_append_drop w (x :: xs)
      · have hd : ((x :: xs).drop w).length = (x :: xs).length - w := List.length_drop ..
        simp only [List.length_cons] at hd h ⊢
        omega

/-- The scheduler's slices concatenate back to the original runner list:
every runner belongs to exactly one slice, in order. -/
theorem chunks_flatten {w : Nat} (hw : 1 ≤ w) (l : List α) :
    (chunks w l).flatten = l :=
  chunks_flatten_aux hw l.length l (Nat.le_refl _)

theorem chunks_length_aux {w : Nat} (hw : 1 ≤ w) :
    ∀ (fuel : Nat) (l : List α), l.length ≤ fuel →
      (chunks w l).length = (l.length + w - 1) / w := by
  intro fuel
  induction fuel with
  | zero =>
    intro l h
    have hl : l = [] := List.eq_nil_of_length_eq_zero (Nat.le_zero.mp h)
    subst hl
    show 0 = (0 + w - 1) / w
    rw [Nat.div_eq_of_lt (by omega)]
  | succ f ih =>
    intro l h
    cases l with
    | nil =>
      show 0 = (0 + w - 1) / w
      rw [Nat.div_eq_of_lt (by omega)]
    | cons x xs =>
      have hd : ((x :: xs).drop w).length = (x :: xs).length - w := List.length_drop ..
      simp only [List.length_cons] at hd h
      rw [chunks_cons hw, List.length_cons, ih _ (by omega), hd, List.length_cons]
      rcases Nat.le_total w (xs.length + 1) with hle | hle
      · have e1 : xs.length + 1 - w + w - 1 = xs.length := by omega
        have e2 : xs.length + 1 + w - 1 = xs.length + w := by omega
        rw [e1, e2, Nat.add_div_right _ (by omega)]
      · have e1 : xs.length + 1 - w = 0 := by omega
        have e2 : xs.length + 1 + w - 1 = xs.length + w := by omega
        rw [e1, e2]
        rw [Nat.div_eq_of_lt (by omega), Nat.add_div_right _ (by omega),
          Nat.div_eq_of_lt (by omega)]

/-- The scheduler produces exactly the ceiling of `n / w` slices. -/
theorem chunks_length {w : Nat} (hw : 1 ≤ w) (l : List α) :
    (chunks w l).length = (l.length + w - 1) / w :=
  chunks_length_aux hw l.length l (Nat.le_refl _)

theorem chunks_sizes_aux {w : Nat} (hw : 1 ≤ w) :
    ∀ (fuel : Nat) (l : List α), l.length ≤ fuel →
      ∀ b ∈ chunks w l, b.length ≤ w := by
  intro fuel
  induction fuel with
  | zero =>
    intro l h b hb
    have hl : l = [] := List.eq_nil_of_length_eq_zero (Nat.le_zero.mp h)
    subst hl
    exact absurd hb (List.not_mem_nil b)
  | succ f ih =>
    intro l h b hb
    cases l with
    | nil => exact absurd hb (List.not_mem_nil b)
    | cons x xs =>
      rw [chunks_cons hw] at hb
      rcases List.mem_cons.mp hb with rfl | hb
      · rw [List.length_take]
        exact Nat.min_le_left ..
      · have hd : ((x :: xs).drop w).length = (x :: xs).length - w := List.length_drop ..
        simp only [List.length_cons] at hd h
        exact ih _ (by omega) b hb

/-- Every slice has at most `w` members. -/
theorem chunks_sizes {w : Nat} (hw : 1 ≤ w) (l : List α) :
    ∀ b ∈ chunks w l, b.length ≤ w :=
  chunks_sizes_aux hw l.length l (Nat.le_refl _)

theorem flatten_filterMap {β : Type} (f : α → Option β) :
    ∀ L : List (List α), (L.map (List.filterMap f)).flatten = L.flatten.filterMap f := by
  intro L
  induction L with
  | nil => rfl
  | cons x xs ih =>
    simp only [List.map_cons, List.flatten_cons, List.filterMap_append, ih]

/-- Rejection logging is lossless: the scheduler logs exactly the escapes
of all thunks, in order — a rejection cancels nothing. -/
theorem runSchedulerLogs_eq {w : Nat} (hw : 1 ≤ w) (rs : List RunOut) :
    runSchedulerLogs w rs = rs.filterMap RunOut.escape := by
  show ((chunks w rs).map runBatchLogs).flatten = _
  rw [show runBatchLogs = List.filterMap RunOut.escape from rfl,
    flatten_filterMap, chunks_flatten hw]

theorem sublist_of_append_mem {γ : Type} {a b : γ} {l1 l2 : List γ}
    (ha : a ∈ l1) (hb : b ∈ l2) : List.Sublist [a, b] (l1 ++ l2) :=
  (List.singleton_sublist.mpr ha).append (List.singleton_sublist.mpr hb)

/-- Barrier property of the batch trace: a member of an earlier batch
settles before any member of a later batch starts. -/
theorem schedTrace_barrier_aux (pre mid post : List (List Nat × List Nat))
    (p1 p2 : List Nat × List Nat) (hperm1 : p1.2.Perm p1.1)
    (i j : Nat) (hi : i ∈ p1.1) (hj : j ∈ p2.1) :
    List.Sublist [SchedEv.settle i, SchedEv.start j]
      (schedTrace (pre ++ p1 :: mid ++ p2 :: post)) := by
  have hi2 : i ∈ p1.2 := hperm1.mem_iff.mpr hi
  have h1 : SchedEv.settle i ∈ batchEvents p1.1 p1.2 :=
    List.mem_append_right _ (List.mem_map_of_mem SchedEv.settle hi2)
  have h2 : SchedEv.start j ∈ batchEvents p2.1 p2.2 :=
    List.mem_append_left _ (List.mem_map_of_mem SchedEv.start hj)
  have hmem1 : SchedEv.settle i ∈
      ((pre ++ [p1]).map (fun p => batchEvents p.1 p.2)).flatten :=
    List.mem_flatten.mpr ⟨batchEvents p1.1 p1.2,
      List.mem_map_of_mem _ (List.mem_append_right pre (List.mem_singleton.mpr rfl)), h1⟩
  have hmem2 : SchedEv.start j ∈
      ((mid ++ p2 :: post).map (fun p => batchEvents p.1 p.2)).flatten :=
    List.mem_flatten.mpr ⟨batchEvents p2.1 p2.2,
      List.mem_map_of_mem _ (List.mem_append_right mid (List.mem_cons_self p2 post)), h2⟩
  have key := sublist_of_append_mem hmem1 hmem2
  have heq : (pre ++ [p1]) ++ (mid ++ p2 :: post) = pre ++ p1 :: mid ++ p2 :: post := by
    simp
  show List.Sublist _
    (((pre ++ p1 :: mid ++ p2 :: post).map (fun p => batchEvents p.1 p.2)).flatten)
  rw [← heq, List.map_append, List.flatten_append]
  exact key

end SchedulerLemmas

/-- C2: for every sequence of suite-executor thunks and every width
`w ≥ 1`, the scheduler partitions them into exactly `ceil(n/w)` consecutive
slices of size at most `w` (their concatenation is the original sequence,
so every executor is invoked exactly once); no member of a later slice
starts until every member of an earlier slice has settled; and a rejected
member is only logged — the log stream is exactly the escapes of all
thunks, so a rejection neither cancels slice-mates nor prevents later
slices. -/
theorem c2_scheduler_partitions (w : Nat) (hw : 1 ≤ w) :
    (∀ rs : List RunOut,
      (chunks w rs).flatten = rs ∧
      (chunks w rs).length = (rs.length + w - 1) / w ∧
      (∀ b ∈ chunks w rs, b.length ≤ w) ∧
      runSchedulerLogs w rs = rs.filterMap RunOut.escape) ∧
    (∀ (ids : List Nat) (pairs pre mid post : List (List Nat × List Nat))
        (p1 p2 : List Nat × List Nat) (i j : Nat),
      pairs.map Prod.fst = chunks w ids →
      pairs = pre ++ p1 :: mid ++ p2 :: post →
      p1.2.Perm p1.1 → i ∈ p1.1 → j ∈ p2.1 →
      List.Sublist [SchedEv.settle i, SchedEv.start j] (schedTrace pairs)) := by
  constructor
  · intro rs
    exact ⟨chunks_flatten hw rs, chunks_length hw rs, chunks_sizes hw rs,
      runSchedulerLogs_eq hw rs⟩
  · intro ids pairs pre mid post p1 p2 i j _ hsplit hperm hi hj
    subst hsplit
    exact schedTrace_barrier_aux pre mid post p1 p2 hperm i j hi hj

/-- Witness for C2 at width `2` with five thunks (second one rejecting):
three slices `[2, 2, 1]`, all invoked, the rejection logged, and the
settle of thunk `1` (first slice) precedes the start of thunk `2`
(second slice) in the scheduler trace. -/
theorem c2_witness :
    (chunks 2 [RunOut.ok [], RunOut.throw [] ⟨true, "e"⟩, RunOut.ok [],
        RunOut.ok [], RunOut.ok []]).flatten =
      [RunOut.ok [], RunOut.throw [] ⟨true, "e"⟩, RunOut.ok [],
        RunOut.ok [], RunOut.ok []] ∧
    (chunks 2 [RunOut.ok [], RunOut.throw [] ⟨true, "e"⟩, RunOut.ok [],
        RunOut.ok [], RunOut.ok []]).length = 3 ∧
    runSchedulerLogs 2 [RunOut.ok [], RunOut.throw [] ⟨true, "e"⟩, RunOut.ok [],
        RunOut.ok [], RunOut.ok []] = [⟨true, "e"⟩] ∧
    List.Sublist [SchedEv.settle 1, SchedEv.start 2]
      (schedTrace [([0, 1], [1, 0]), ([2, 3], [3, 2]), ([4], [4])]) := by
  obtain ⟨h1, h2⟩ := c2_scheduler_partitions 2 (by decide)
  obtain ⟨ha, hb, _, hd⟩ := h1 [RunOut.ok [], RunOut.throw [] ⟨true, "e"⟩,
    RunOut.ok [], RunOut.ok [], RunOut.ok []]
  refine ⟨ha, by rw [hb]; decide, by rw [hd]; decide, ?_⟩
  exact h2 (List.range 5) [([0, 1], [1, 0]), ([2, 3], [3, 2]), ([4], [4])]
    [] [] [([4], [4])] ([0, 1], [1, 0]) ([2, 3], [3, 2]) 1 2
    (by decide) (by decide) (by decide) (by decide) (by decide)

theorem foldl_keep_last : ∀ (l : List Nat) (a : Nat) (h : l ≠ []),
    l.foldl (fun _ p => p) a = l.getLast h := by
  intro l
  induction l with
  | nil => intro a h; exact absurd rfl h
  | cons x xs ih =>
    intro a h
    cases xs with
    | nil => rfl
    | cons y ys =>
      show (y :: ys).foldl (fun _ p => p) x = _
      exact (ih x (List.cons_ne_nil y ys)).trans
        (List.getLast_cons (List.cons_ne_nil y ys)).symm

/-- C5: with at least one discovered suite file, the batch width the
scheduler uses is the `parallelExecution` value of the config resolved for
the last suite discovered, and that single width drives the slicing of all
suites of the invocation. -/
theorem c5_global_width (ps : List Nat) (rs : List RunOut) (h : ps ≠ []) :
    finalParallelRun ps = ps.getLast h ∧
    invocationBatches ps rs = chunks (ps.getLast h) rs := by
  have hfold : finalParallelRun ps = ps.getLast h := foldl_keep_last ps 1 h
  exact ⟨hfold, by rw [invocationBatches, hfold]⟩

/-- Witness for C5: per-suite widths `[3, 1, 2]` give global width `2`
(the last suite's value), used to slice four runner thunks into `[2, 2]`. -/
theorem c5_witness :
    finalParallelRun [3, 1, 2] = 2 ∧
    invocationBatches [3, 1, 2] [RunOut.ok [], RunOut.ok [], RunOut.ok [], RunOut.ok []] =
      chunks 2 [RunOut.ok [], RunOut.ok [], RunOut.ok [], RunOut.ok []] := by
  obtain ⟨h1, h2⟩ := c5_global_width [3, 1, 2]
    [RunOut.ok [], RunOut.ok [], RunOut.ok [], RunOut.ok []] (by decide)
  exact ⟨by rw [h1]; decide, by rw [h2]; decide⟩

/-- C1 counterexample: on a suite whose `BEFORE_SUITE` emission throws an
`Error`, the executor does NOT mark the Runner `FAILED` — the `catch` block
at lines 154-161 records end time and duration and returns, leaving the
status as set by `startNow`.  This refutes the claim's "marks the Runner
FAILED" at a concrete input. -/
theorem c1_counterexample :
    c1env.beforeSuite = some ⟨true, "boom"⟩ ∧
    (finalState c1env).status = TestStatus.RUNNING ∧
    (finalState c1env).status ≠ TestStatus.FAILED := by
  decide

/-- C1 (amended): for every suite run whose `BEFORE_SUITE` emission throws
an `Error`, the executor records the Runner's end time and duration,
leaves the Runner's status unchanged at `RUNNING` (it is not marked
`FAILED`), runs no test cases (every case record stays `PENDING`, no case
is started, no driver is acquired), and never emits `AFTER_SUITE`. -/
theorem c1_before_suite_abort (e : SuiteEnv) (t : Thrown)
    (hbs : e.beforeSuite = some t) (hE : t.isError = true) :
    (runSuite e).escape = none ∧
    (runSuite e).trace = [.runnerStartNow, .emit .BEFORE_SUITE none,
      .logError t.message, .runnerEndNow, .runnerGenDuration] ∧
    (finalState e).endTime.isSome = true ∧
    (finalState e).duration.isSome = true ∧
    (finalState e).status = TestStatus.RUNNING ∧
    (∀ r ∈ (finalState e).testCases, r.status = TestStatus.PENDING) ∧
    Action.emit .AFTER_SUITE none ∉ (runSuite e).trace ∧
    (∀ i, Action.caseStartNow i ∉ (runSuite e).trace) ∧
    (∀ i, Action.driverStart i ∉ (runSuite e).trace) := by
  have hrs : runSuite e = RunOut.ok [.runnerStartNow, .emit .BEFORE_SUITE none,
      .logError t.message, .runnerEndNow, .runnerGenDuration] := by
    rw [runSuite, hbs]
    simp [hE]
  have hfs : finalState e = stateAfter e.cases.length [.runnerStartNow,
      .emit .BEFORE_SUITE none, .logError t.message, .runnerEndNow,
      .runnerGenDuration] := by
    rw [finalState, hrs]
    rfl
  refine ⟨by rw [hrs]; rfl, by rw [hrs]; rfl, ?_, ?_, ?_, ?_, ?_, ?_, ?_⟩

  · rw [hfs]; rfl
  · rw [hfs]; rfl
  · rw [hfs]; rfl
  · rw [hfs]
    intro r hr
    have : (stateAfter e.cases.length [.runnerStartNow, .emit .BEFORE_SUITE none,
        .logError t.message, .runnerEndNow, .runnerGenDuration]).testCases =
        List.replicate e.cases.length {} := rfl
    rw [this] at hr
    rw [List.eq_of_mem_replicate hr]
  · rw [hrs]; simp [RunOut.ok]
  · intro i; rw [hrs]; simp [RunOut.ok]
  · intro i; rw [hrs]; simp [RunOut.ok]

/-- Witness for the C1 theorem at the concrete input `c1env`. -/
theorem c1_witness :
    (runSuite c1env).escape = none ∧
    (runSuite c1env).trace = [.runnerStartNow, .emit .BEFORE_SUITE none,
      .logError "boom", .runnerEndNow, .runnerGenDuration] ∧
    (finalState c1env).endTime.isSome = true ∧
    (finalState c1env).duration.isSome = true ∧
    (finalState c1env).status = TestStatus.RUNNING ∧
    (∀ r ∈ (finalState c1env).testCases, r.status = TestStatus.PENDING) ∧
    Action.emit .AFTER_SUITE none ∉ (runSuite c1env).trace ∧
    (∀ i, Action.caseStartNow i ∉ (runSuite c1env).trace) ∧
    (∀ i, Action.driverStart i ∉ (runSuite c1env).trace) :=
  c1_before_suite_abort c1env ⟨true, "boom"⟩ rfl rfl

/-- C4 counterexample: a disabled case's record status is NOT set to
`SKIPPED` — the branch at lines 235-239 only logs, so the record keeps its
initial `PENDING` status. -/
theorem c4_counterexample :
    (finalState c4env).testCases.map CaseRecord.status = [TestStatus.PENDING] ∧
    TestStatus.PENDING ≠ TestStatus.SKIPPED := by
  decide

/-- C4 (amended): for every disabled test case the executor acquires no
driver handle and emits no hook; the per-case routine performs only the
current-index assignment and an informational log line, so the case's
record is left entirely unchanged (it stays `PENDING`; no `SKIPPED` status
is ever recorded). -/
theorem c4_disabled_case (i : Nat) (c : CaseEnv) (h : c.enabled = false) :
    runCase i c = RunOut.ok [.setCurrentIndex i, .logInfo (skipMsg i)] ∧
    (∀ j, Action.driverStart j ∉ (runCase i c).trace) ∧
    (∀ ev oi, Action.emit ev oi ∉ (runCase i c).trace) ∧
    (∀ s, Action.caseSetStatus i s ∉ (runCase i c).trace) ∧
    (∀ st : RunnerState,
      ((runCase i c).trace.foldl applyAction st).testCases = st.testCases) := by
  have h1 : runCase i c = RunOut.ok [.setCurrentIndex i, .logInfo (skipMsg i)] := by
    rw [runCase, h]
    simp
  refine ⟨h1, ?_, ?_, ?_, ?_⟩
  · intro j; rw [h1]; simp [RunOut.ok]
  · intro ev oi; rw [h1]; simp [RunOut.ok]
  · intro st; rw [h1]; simp [RunOut.ok]
  · intro st; rw [h1]; rfl

/-- Witness for the C4 theorem at a concrete disabled case. -/
theorem c4_witness :
    runCase 0 ⟨false, none, none, none, none⟩ =
      RunOut.ok [.setCurrentIndex 0, .logInfo (skipMsg 0)] ∧
    (∀ j, Action.driverStart j ∉ (runCase 0 ⟨false, none, none, none, none⟩).trace) ∧
    (∀ ev oi, Action.emit ev oi ∉ (runCase 0 ⟨false, none, none, none, none⟩).trace) ∧
    (∀ s, Action.caseSetStatus 0 s ∉ (runCase 0 ⟨false, none, none, none, none⟩).trace) ∧
    (∀ st : RunnerState,
      ((runCase 0 ⟨false, none, none, none, none⟩).trace.foldl applyAction st).testCases =
        st.testCases) :=
  c4_disabled_case 0 ⟨false, none, none, none, none⟩ rfl


theorem updAt_getElem_ne (f : CaseRecord → CaseRecord) :
    ∀ (l : List CaseRecord) (i j : Nat), j ≠ i → (updAt i f l)[j]? = l[j]? := by
  intro l
  induction l with
  | nil => intro i j _; cases i <;> rfl
  | cons c rest ih =>
    intro i j h
    cases i with
    | zero =>
      cases j with
      | zero => exact absurd rfl h
      | succ j' => simp [updAt]
    | succ i' =>
      cases j with
      | zero => simp [updAt]
      | succ j' =>
        simp only [updAt, List.getElem?_cons_succ]
        exact ih i' j' (fun hh => h (by rw [hh]))

theorem updAt_getElem_eq (f : CaseRecord → CaseRecord) :
    ∀ (l : List CaseRecord) (i : Nat) (r : CaseRecord), l[i]? = some r →
      (updAt i f l)[i]? = some (f r) := by
  intro l
  induction l with
  | nil => intro i r h; simp at h
  | cons c rest ih =>
    intro i r h
    cases i with
    | zero =>
      simp only [List.getElem?_cons_zero, Option.some.injEq] at h
      subst h
      simp [updAt]
    | succ i' =>
      simp only [updAt, List.getElem?_cons_succ]
      exact ih i' r (by simpa using h)

/-- C3 (amended): for every enabled test case whose `BEFORE_CASE` emission
throws an `Error` (and whose `AFTER_CASE` emission, if it throws, throws an
`Error`), the executor still emits `AFTER_CASE` exactly once for that case,
sets the case's duration to exactly zero (and never computes one), never
starts the case body, and invokes driver release twice — once in the catch
branch and once in the fall-through cleanup — with no error surfacing
(release is modelled as idempotent per the spec, and the per-case routine
completes normally).  The original claim fails when the thrown value is a
non-Error: see the counterexample. -/
theorem c3_before_case_error (i : Nat) (c : CaseEnv) (t : Thrown)
    (hEn : c.enabled = true) (hbc : c.beforeCase = some t) (hE : t.isError = true)
    (hac : errOnly c.afterCase = true) :
    (runCase i c).escape = none ∧
    (runCase i c).trace.count (Action.emit .AFTER_CASE (some i)) = 1 ∧
    (runCase i c).trace.count (Action.driverDestroy i) = 2 ∧
    Action.caseSetDurationZero i ∈ (runCase i c).trace ∧
    Action.caseGenDuration i ∉ (runCase i c).trace ∧
    Action.caseStartNow i ∉ (runCase i c).trace := by
  rcases c with ⟨en, bc, body, sc, ac⟩
  dsimp only at hEn hbc hac
  subst hEn
  subst hbc
  cases ac with
  | none =>
    have htr : runCase i ⟨true, some t, body, sc, none⟩ =
        RunOut.ok [.setCurrentIndex i, .driverStart i, .emit .BEFORE_CASE (some i),
          .logError t.message, .caseSetDurationZero i, .driverDestroy i,
          .emit .AFTER_CASE (some i), .driverDestroy i] := by
      simp [runCase, outerTryBlock, btcHandler, afterCasePart, hE]
    rw [htr]
    refine ⟨rfl, ?_, ?_, ?_, ?_, ?_⟩ <;> simp [List.count_cons]
  | some u =>
    have hU : u.isError = true := hac
    have htr : runCase i ⟨true, some t, body, sc, some u⟩ =
        RunOut.ok [.setCurrentIndex i, .driverStart i, .emit .BEFORE_CASE (some i),
          .logError t.message, .caseSetDurationZero i, .driverDestroy i,
          .emit .AFTER_CASE (some i), .logError u.message, .driverDestroy i] := by
      simp [runCase, outerTryBlock, btcHandler, afterCasePart, hE, hU]
    rw [htr]
    refine ⟨rfl, ?_, ?_, ?_, ?_, ?_⟩ <;> simp [List.count_cons]

/-- Witness for the C3 theorem at a concrete enabled case whose
`BEFORE_CASE` emission throws an `Error`. -/
theorem c3_witness :
    (runCase 0 ⟨true, some ⟨true, "bc"⟩, none, none, none⟩).escape = none ∧
    (runCase 0 ⟨true, some ⟨true, "bc"⟩, none, none, none⟩).trace.count
      (Action.emit .AFTER_CASE (some 0)) = 1 ∧
    (runCase 0 ⟨true, some ⟨true, "bc"⟩, none, none, none⟩).trace.count
      (Action.driverDestroy 0) = 2 ∧
    Action.caseSetDurationZero 0 ∈ (runCase 0 ⟨true, some ⟨true, "bc"⟩, none, none, none⟩).trace ∧
    Action.caseGenDuration 0 ∉ (runCase 0 ⟨true, some ⟨true, "bc"⟩, none, none, none⟩).trace ∧
    Action.caseStartNow 0 ∉ (runCase 0 ⟨true, some ⟨true, "bc"⟩, none, none, none⟩).trace :=
  c3_before_case_error 0 ⟨true, some ⟨true, "bc"⟩, none, none, none⟩ ⟨true, "bc"⟩
    rfl rfl rfl rfl

/-- C3 counterexample: when the `BEFORE_CASE` emission throws a non-Error
value, `assertIsError` inside the catch rethrows it before the handler
body runs: `AFTER_CASE` is never emitted, the driver is never released,
the duration is not set, and the value escapes the per-case routine. -/
theorem c3_counterexample :
    c3cex.enabled = true ∧
    c3cex.beforeCase = some ⟨false, "bc-string"⟩ ∧
    (runCase 0 c3cex).trace.count (Action.emit .AFTER_CASE (some 0)) = 0 ∧
    (runCase 0 c3cex).trace.count (Action.driverDestroy 0) = 0 ∧
    Action.caseSetDurationZero 0 ∉ (runCase 0 c3cex).trace ∧
    (runCase 0 c3cex).escape = some ⟨false, "bc-string"⟩ := by
  decide

/-- C10 (amended): for every enabled test case whose `BEFORE_CASE`
emission throws an `Error`, the catch handler performs exactly the actions
log-error, set-duration-zero and destroy-driver, and folding its trace
over any run record changes only the case's duration (to zero): the
runner's status, start/end time and duration, every other case record, and
the case's own status, times, captured failure message and screenshot are
all left unchanged — so the case stays `PENDING` and the Runner is not
marked `FAILED` by this path.  For a non-Error throw the handler rethrows
without performing the duration-zero mutation: see the counterexample. -/
theorem c10_btc_handler_frame (i : Nat) (t : Thrown) (st : RunnerState) (r : CaseRecord)
    (hE : t.isError = true) (hr : st.testCases[i]? = some r) :
    btcHandler i t = RunOut.ok [.logError t.message, .caseSetDurationZero i,
      .driverDestroy i] ∧
    ((btcHandler i t).trace.foldl applyAction st).status = st.status ∧
    ((btcHandler i t).trace.foldl applyAction st).startTime = st.startTime ∧
    ((btcHandler i t).trace.foldl applyAction st).endTime = st.endTime ∧
    ((btcHandler i t).trace.foldl applyAction st).duration = st.duration ∧
    (∀ j, j ≠ i →
      ((btcHandler i t).trace.foldl applyAction st).testCases[j]? = st.testCases[j]?) ∧
    ((btcHandler i t).trace.foldl applyAction st).testCases[i]? =
      some { r with duration := some 0 } := by
  have hb : btcHandler i t = RunOut.ok [.logError t.message, .caseSetDurationZero i,
      .driverDestroy i] := by
    simp [btcHandler, hE]
  refine ⟨hb, ?_, ?_, ?_, ?_, ?_, ?_⟩ <;> rw [hb]
  · rfl
  · rfl
  · rfl
  · rfl
  · intro j hj
    exact updAt_getElem_ne _ st.testCases i j hj
  · exact updAt_getElem_eq _ st.testCases i r hr

/-- Witness for the C10 theorem: the handler applied at case index `0` of
a fresh single-case record, for an `Error` throw. -/
theorem c10_witness :
    btcHandler 0 ⟨true, "x"⟩ = RunOut.ok [.logError "x", .caseSetDurationZero 0,
      .driverDestroy 0] ∧
    ((btcHandler 0 ⟨true, "x"⟩).trace.foldl applyAction (initState 1)).status =
      (initState 1).status ∧
    ((btcHandler 0 ⟨true, "x"⟩).trace.foldl applyAction (initState 1)).startTime =
      (initState 1).startTime ∧
    ((btcHandler 0 ⟨true, "x"⟩).trace.foldl applyAction (initState 1)).endTime =
      (initState 1).endTime ∧
    ((btcHandler 0 ⟨true, "x"⟩).trace.foldl applyAction (initState 1)).duration =
      (initState 1).duration ∧
    (∀ j, j ≠ 0 →
      ((btcHandler 0 ⟨true, "x"⟩).trace.foldl applyAction (initState 1)).testCases[j]? =
        (initState 1).testCases[j]?) ∧
    ((btcHandler 0 ⟨true, "x"⟩).trace.foldl applyAction (initState 1)).testCases[0]? =
      some { blankCase with duration := some 0 } :=
  c10_btc_handler_frame 0 ⟨true, "x"⟩ (initState 1) blankCase rfl (by decide)

/-- C10 counterexample: for a non-Error throw the handler performs no
mutation at all — in particular the case's duration is NOT set to zero —
and rethrows the value. -/
theorem c10_counterexample :
    (btcHandler 0 ⟨false, "oops"⟩).escape = some ⟨false, "oops"⟩ ∧
    (btcHandler 0 ⟨false, "oops"⟩).trace = [] ∧
    ((btcHandler 0 ⟨false, "oops"⟩).trace.foldl applyAction
      (initState 1)).testCases[0]? = some blankCase ∧
    blankCase.duration = none ∧ some 0 ≠ (none : Option Nat) := by
  decide


theorem sublist_pair_cons3 (x a b : Action) (rest : List Action) :
    List.Sublist [a, b] (x :: a :: b :: rest) :=
  List.Sublist.cons x (List.Sublist.cons₂ a (List.Sublist.cons₂ b (List.nil_sublist rest)))

/-- Shared analysis of an enabled case whose body throws an `Error`, under
the proviso that the screenshot capture and the `AFTER_CASE` emission, if
they throw, throw `Error`s: the per-case routine completes normally with
the case ended, timed, marked `FAILED` with the captured message, the
runner marked `FAILED`, no `SUCCESS` recorded, and the screenshot either
attached (on success) or its failure merely logged as a warning. -/
theorem runCase_body_error (i : Nat) (c : CaseEnv) (t : Thrown)
    (hEn : c.enabled = true) (hbc : c.beforeCase = none) (hb : c.body = some t)
    (hE : t.isError = true) (hsc : errOnly c.screenshot = true)
    (hac : errOnly c.afterCase = true) :
    (runCase i c).escape = none ∧
    Action.caseEndNow i ∈ (runCase i c).trace ∧
    Action.caseGenDuration i ∈ (runCase i c).trace ∧
    Action.caseSetStatus i .FAILED ∈ (runCase i c).trace ∧
    Action.caseSetException i t.message ∈ (runCase i c).trace ∧
    Action.runnerSetStatus .FAILED ∈ (runCase i c).trace ∧
    Action.caseSetStatus i .SUCCESS ∉ (runCase i c).trace ∧
    (∀ s, c.screenshot = some s →
      screenshotTry i c.screenshot = RunOut.ok [.logWarn s.message]) ∧
    (c.screenshot = none → Action.caseSetScreenshot i (ssPath i) ∈ (runCase i c).trace) := by
  rcases c with ⟨en, bc, body, sc, ac⟩
  dsimp only at hEn hbc hb hsc hac
  subst hEn
  subst hbc
  subst hb
  cases sc with
  | none =>
    cases ac with
    | none =>
      have htr : runCase i ⟨true, none, some t, none, none⟩ =
          RunOut.ok [.setCurrentIndex i, .driverStart i, .emit .BEFORE_CASE (some i),
            .caseStartNow i, .caseEndNow i, .caseGenDuration i,
            .caseSetStatus i .FAILED, .caseSetException i t.message,
            .caseSetScreenshot i (ssPath i), .runnerSetStatus .FAILED,
            .logError t.message, .emit .AFTER_CASE (some i), .driverDestroy i] := by
        simp [runCase, outerTryBlock, innerTry, tcHandler, screenshotTry, btcHandler,
          afterCasePart, hE]
      rw [htr]
      refine ⟨rfl, by simp, by simp, by simp, by simp, by simp, by simp, ?_, ?_⟩
      · intro s h
        exact absurd (show (none : Option Thrown) = some s from h) (by simp)
      · intro _
        simp
    | some u =>
      have hU : u.isError = true := hac
      have htr : runCase i ⟨true, none, some t, none, some u⟩ =
          RunOut.ok [.setCurrentIndex i, .driverStart i, .emit .BEFORE_CASE (some i),
            .caseStartNow i, .caseEndNow i, .caseGenDuration i,
            .caseSetStatus i .FAILED, .caseSetException i t.message,
            .caseSetScreenshot i (ssPath i), .runnerSetStatus .FAILED,
            .logError t.message, .emit .AFTER_CASE (some i), .logError u.message,
            .driverDestroy i] := by
        simp [runCase, outerTryBlock, innerTry, tcHandler, screenshotTry, btcHandler,
          afterCasePart, hE, hU]
      rw [htr]
      refine ⟨rfl, by simp, by simp, by simp, by simp, by simp, by simp, ?_, ?_⟩
      · intro s h
        exact absurd (show (none : Option Thrown) = some s from h) (by simp)
      · intro _
        simp
  | some v =>
    have hV : v.isError = true := hsc
    cases ac with
    | none =>
      have htr : runCase i ⟨true, none, some t, some v, none⟩ =
          RunOut.ok [.setCurrentIndex i, .driverStart i, .emit .BEFORE_CASE (some i),
            .caseStartNow i, .caseEndNow i, .caseGenDuration i,
            .caseSetStatus i .FAILED, .caseSetException i t.message,
            .logWarn v.message, .runnerSetStatus .FAILED,
            .logError t.message, .emit .AFTER_CASE (some i), .driverDestroy i] := by
        simp [runCase, outerTryBlock, innerTry, tcHandler, screenshotTry, btcHandler,
          afterCasePart, hE, hV]
      rw [htr]
      refine ⟨rfl, by simp, by simp, by simp, by simp, by simp, by simp, ?_, ?_⟩
      · intro s h
        have hv : (some v : Option Thrown) = some s := h
        obtain rfl : v = s := by injection hv
        simp [screenshotTry, hV]
      · intro h
        exact absurd (show (some v : Option Thrown) = none from h) (by simp)
    | some u =>
      have hU : u.isError = true := hac
      have htr : runCase i ⟨true, none, some t, some v, some u⟩ =
          RunOut.ok [.setCurrentIndex i, .driverStart i, .emit .BEFORE_CASE (some i),
            .caseStartNow i, .caseEndNow i, .caseGenDuration i,
            .caseSetStatus i .FAILED, .caseSetException i t.message,
            .logWarn v.message, .runnerSetStatus .FAILED,
            .logError t.message, .emit .AFTER_CASE (some i), .logError u.message,
            .driverDestroy i] := by
        simp [runCase, outerTryBlock, innerTry, tcHandler, screenshotTry, btcHandler,
          afterCasePart, hE, hV, hU]
      rw [htr]
      refine ⟨rfl, by simp, by simp, by simp, by simp, by simp, by simp, ?_, ?_⟩
      · intro s h
        have hv : (some v : Option Thrown) = some s := h
        obtain rfl : v = s := by injection hv
        simp [screenshotTry, hV]
      · intro h
        exact absurd (show (some v : Option Thrown) = none from h) (by simp)

/-- C6 (amended): every `Error` thrown by an enabled test case's body is
caught at the case level — provided the screenshot capture and the
`AFTER_CASE` emission do not throw non-Error values, the per-case routine
completes normally (nothing propagates out of the suite executor's
invocation for this case), the case is marked `FAILED` and the Runner is
marked `FAILED`.  A non-Error value thrown by the body instead escapes the
suite executor's top-level invocation: see the counterexample. -/
theorem c6_body_error_caught (i : Nat) (c : CaseEnv) (t : Thrown)
    (hEn : c.enabled = true) (hbc : c.beforeCase = none) (hb : c.body = some t)
    (hE : t.isError = true) (hsc : errOnly c.screenshot = true)
    (hac : errOnly c.afterCase = true) :
    (runCase i c).escape = none ∧
    Action.caseSetStatus i .FAILED ∈ (runCase i c).trace ∧
    Action.runnerSetStatus .FAILED ∈ (runCase i c).trace := by
  obtain ⟨h1, _, _, h4, _, h6, _, _, _⟩ :=
    runCase_body_error i c t hEn hbc hb hE hsc hac
  exact ⟨h1, h4, h6⟩

/-- Witness for the C6 theorem at a concrete enabled case whose body
throws an `Error`. -/
theorem c6_witness :
    (runCase 0 ⟨true, none, some ⟨true, "tb"⟩, none, none⟩).escape = none ∧
    Action.caseSetStatus 0 .FAILED ∈
      (runCase 0 ⟨true, none, some ⟨true, "tb"⟩, none, none⟩).trace ∧
    Action.runnerSetStatus .FAILED ∈
      (runCase 0 ⟨true, none, some ⟨true, "tb"⟩, none, none⟩).trace :=
  c6_body_error_caught 0 ⟨true, none, some ⟨true, "tb"⟩, none, none⟩ ⟨true, "tb"⟩
    rfl rfl rfl rfl rfl rfl

/-- C6 counterexample: a non-Error value thrown by the body is rethrown by
`assertIsError` in both catch handlers and escapes the suite executor's
top-level invocation (the promise rejects); the case is left `RUNNING`,
not `FAILED`, and the Runner is not marked `FAILED`. -/
theorem c6_counterexample :
    (runSuite c6env).escape = some ⟨false, "thrown-string"⟩ ∧
    (finalState c6env).status ≠ TestStatus.FAILED ∧
    (finalState c6env).testCases.map CaseRecord.status = [TestStatus.RUNNING] := by
  decide

/-- C7 (amended): for every enabled test case whose body throws an
`Error`, the executor unconditionally records the case's end time and
duration, marks it `FAILED`, stores the error's message as the captured
failure message, and never records `SUCCESS` (these writes precede the
screenshot attempt); provided the screenshot capture does not throw a
non-Error value, the Runner is marked `FAILED`; and a screenshot failure
that is an `Error` is logged as a warning only, changing no recorded
state and propagating nothing.  A non-Error screenshot failure instead
escapes and skips the Runner `FAILED` mark: see the counterexample. -/
theorem c7_body_error_records (i : Nat) (c : CaseEnv) (t : Thrown)
    (hEn : c.enabled = true) (hbc : c.beforeCase = none) (hb : c.body = some t)
    (hE : t.isError = true) :
    Action.caseEndNow i ∈ (runCase i c).trace ∧
    Action.caseGenDuration i ∈ (runCase i c).trace ∧
    Action.caseSetStatus i .FAILED ∈ (runCase i c).trace ∧
    Action.caseSetException i t.message ∈ (runCase i c).trace ∧
    Action.caseSetStatus i .SUCCESS ∉ (runCase i c).trace ∧
    (errOnly c.screenshot = true →
      Action.runnerSetStatus .FAILED ∈ (runCase i c).trace) ∧
    (∀ s, c.screenshot = some s → s.isError = true →
      screenshotTry i c.screenshot = RunOut.ok [.logWarn s.message]) := by
  rcases c with ⟨en, bc, body, sc, ac⟩
  dsimp only at hEn hbc hb
  subst hEn
  subst hbc
  subst hb
  cases sc with
  | none =>
    cases ac with
    | none =>
      have htr : runCase i ⟨true, none, some t, none, none⟩ =
          RunOut.ok [.setCurrentIndex i, .driverStart i, .emit .BEFORE_CASE (some i),
            .caseStartNow i, .caseEndNow i, .caseGenDuration i,
            .caseSetStatus i .FAILED, .caseSetException i t.message,
            .caseSetScreenshot i (ssPath i), .runnerSetStatus .FAILED,
            .logError t.message, .emit .AFTER_CASE (some i), .driverDestroy i] := by
        simp [runCase, outerTryBlock, innerTry, tcHandler, screenshotTry, btcHandler,
          afterCasePart, hE]
      rw [htr]
      refine ⟨by simp, by simp, by simp, by simp, by simp, fun _ => by simp, ?_⟩
      intro s h _
      exact absurd (show (none : Option Thrown) = some s from h) (by simp)
    | some u =>
      cases hU : u.isError with
      | true =>
        have htr : runCase i ⟨true, none, some t, none, some u⟩ =
            RunOut.ok [.setCurrentIndex i, .driverStart i, .emit .BEFORE_CASE (some i),
              .caseStartNow i, .caseEndNow i, .caseGenDuration i,
              .caseSetStatus i .FAILED, .caseSetException i t.message,
              .caseSetScreenshot i (ssPath i), .runnerSetStatus .FAILED,
              .logError t.message, .emit .AFTER_CASE (some i), .logError u.message,
              .driverDestroy i] := by
          simp [runCase, outerTryBlock, innerTry, tcHandler, screenshotTry, btcHandler,
            afterCasePart, hE, hU]
        rw [htr]
        refine ⟨by simp, by simp, by simp, by simp, by simp, fun _ => by simp, ?_⟩
        intro s h _
        exact absurd (show (none : Option Thrown) = some s from h) (by simp)
      | false =>
        have htr : runCase i ⟨true, none, some t, none, some u⟩ =
            RunOut.throw [.setCurrentIndex i, .driverStart i, .emit .BEFORE_CASE (some i),
              .caseStartNow i, .caseEndNow i, .caseGenDuration i,
              .caseSetStatus i .FAILED, .caseSetException i t.message,
              .caseSetScreenshot i (ssPath i), .runnerSetStatus .FAILED,
              .logError t.message, .emit .AFTER_CASE (some i)] u := by
          simp [runCase, outerTryBlock, innerTry, tcHandler, screenshotTry, btcHandler,
            afterCasePart, hE, hU]
        rw [htr]
        refine ⟨by simp, by simp, by simp, by simp, by simp, fun _ => by simp, ?_⟩
        intro s h _
        exact absurd (show (none : Option Thrown) = some s from h) (by simp)
  | some v =>
    cases hV : v.isError with
    | true =>
      cases ac with
      | none =>
        have htr : runCase i ⟨true, none, some t, some v, none⟩ =
            RunOut.ok [.setCurrentIndex i, .driverStart i, .emit .BEFORE_CASE (some i),
              .caseStartNow i, .caseEndNow i, .caseGenDuration i,
              .caseSetStatus i .FAILED, .caseSetException i t.message,
              .logWarn v.message, .runnerSetStatus .FAILED,
              .logError t.message, .emit .AFTER_CASE (some i), .driverDestroy i] := by
          simp [runCase, outerTryBlock, innerTry, tcHandler, screenshotTry, btcHandler,
            afterCasePart, hE, hV]
        rw [htr]
        refine ⟨by simp, by simp, by simp, by simp, by simp, fun _ => by simp, ?_⟩
        intro s h _
        have hv : (some v : Option Thrown) = some s := h
        obtain rfl : v = s := by injection hv
        simp [screenshotTry, hV]
      | some u =>
        cases hU : u.isError with
        | true =>
          have htr : runCase i ⟨true, none, some t, some v, some u⟩ =
              RunOut.ok [.setCurrentIndex i, .driverStart i, .emit .BEFORE_CASE (some i),
                .caseStartNow i, .caseEndNow i, .caseGenDuration i,
                .caseSetStatus i .FAILED, .caseSetException i t.message,
                .logWarn v.message, .runnerSetStatus .FAILED,
                .logError t.message, .emit .AFTER_CASE (some i), .logError u.message,
                .driverDestroy i] := by
            simp [runCase, outerTryBlock, innerTry, tcHandler, screenshotTry, btcHandler,
              afterCasePart, hE, hV, hU]
          rw [htr]
          refine ⟨by simp, by simp, by simp, by simp, by simp, fun _ => by simp, ?_⟩
          intro s h _
          have hv : (some v : Option Thrown) = some s := h
          obtain rfl : v = s := by injection hv
          simp [screenshotTry, hV]
        | false =>
          have htr : runCase i ⟨true, none, some t, some v, some u⟩ =
              RunOut.throw [.setCurrentIndex i, .driverStart i, .emit .BEFORE_CASE (some i),
                .caseStartNow i, .caseEndNow i, .caseGenDuration i,
                .caseSetStatus i .FAILED, .caseSetException i t.message,
                .logWarn v.message, .runnerSetStatus .FAILED,
                .logError t.message, .emit .AFTER_CASE (some i)] u := by
            simp [runCase, outerTryBlock, innerTry, tcHandler, screenshotTry, btcHandler,
              afterCasePart, hE, hV, hU]
          rw [htr]
          refine ⟨by simp, by simp, by simp, by simp, by simp, fun _ => by simp, ?_⟩
          intro s h _
          have hv : (some v : Option Thrown) = some s := h
          obtain rfl : v = s := by injection hv
          simp [screenshotTry, hV]
    | false =>
      have htr : runCase i ⟨true, none, some t, some v, ac⟩ =
          RunOut.throw [.setCurrentIndex i, .driverStart i, .emit .BEFORE_CASE (some i),
            .caseStartNow i, .caseEndNow i, .caseGenDuration i,
            .caseSetStatus i .FAILED, .caseSetException i t.message] v := by
        simp [runCase, outerTryBlock, innerTry, tcHandler, screenshotTry, btcHandler,
          afterCasePart, hE, hV]
      rw [htr]
      refine ⟨by simp, by simp, by simp, by simp, by simp, ?_, ?_⟩
      · intro h
        have hv : v.isError = true := h
        rw [hV] at hv
        exact absurd hv (by decide)
      · intro s h hsE
        have hv : (some v : Option Thrown) = some s := h
        obtain rfl : v = s := by injection hv
        rw [hV] at hsE
        exact absurd hsE (by decide)

/-- Witness for the C7 theorem: body throws an `Error` and the screenshot
capture also throws an `Error` (logged as a warning). -/
theorem c7_witness :
    Action.caseEndNow 0 ∈
      (runCase 0 ⟨true, none, some ⟨true, "tb7"⟩, some ⟨true, "ssw"⟩, none⟩).trace ∧
    Action.caseGenDuration 0 ∈
      (runCase 0 ⟨true, none, some ⟨true, "tb7"⟩, some ⟨true, "ssw"⟩, none⟩).trace ∧
    Action.caseSetStatus 0 .FAILED ∈
      (runCase 0 ⟨true, none, some ⟨true, "tb7"⟩, some ⟨true, "ssw"⟩, none⟩).trace ∧
    Action.caseSetException 0 "tb7" ∈
      (runCase 0 ⟨true, none, some ⟨true, "tb7"⟩, some ⟨true, "ssw"⟩, none⟩).trace ∧
    Action.caseSetStatus 0 .SUCCESS ∉
      (runCase 0 ⟨true, none, some ⟨true, "tb7"⟩, some ⟨true, "ssw"⟩, none⟩).trace ∧
    (errOnly (some ⟨true, "ssw"⟩) = true →
      Action.runnerSetStatus .FAILED ∈
        (runCase 0 ⟨true, none, some ⟨true, "tb7"⟩, some ⟨true, "ssw"⟩, none⟩).trace) ∧
    (∀ s, (some ⟨true, "ssw"⟩ : Option Thrown) = some s → s.isError = true →
      screenshotTry 0 (some ⟨true, "ssw"⟩) = RunOut.ok [.logWarn s.message]) :=
  c7_body_error_records 0 ⟨true, none, some ⟨true, "tb7"⟩, some ⟨true, "ssw"⟩, none⟩
    ⟨true, "tb7"⟩ rfl rfl rfl rfl

/-- C7 counterexample: when the screenshot capture throws a non-Error
value while handling a body `Error`, `assertIsError` rethrows it: no
warning is logged, the Runner `FAILED` mark at line 209 is skipped, and
the value escapes the per-case routine. -/
theorem c7_counterexample :
    (runCase 0 c7cex).escape = some ⟨false, "ss-x"⟩ ∧
    Action.runnerSetStatus .FAILED ∉ (runCase 0 c7cex).trace ∧
    Action.logWarn "ss-x" ∉ (runCase 0 c7cex).trace ∧
    Action.caseSetStatus 0 .FAILED ∈ (runCase 0 c7cex).trace := by
  decide


theorem seq_trace_append (a b : RunOut) : ∃ r, (a.seq b).trace = a.trace ++ r := by
  rcases a with ⟨tr, esc⟩
  cases esc with
  | none => exact ⟨b.trace, rfl⟩
  | some t => exact ⟨[], (List.append_nil tr).symm⟩

theorem tryCatch_trace_append (a : RunOut) (h : Thrown → RunOut) :
    ∃ r, (tryCatch a h).trace = a.trace ++ r := by
  rcases a with ⟨tr, esc⟩
  cases esc with
  | none => exact ⟨[], (List.append_nil tr).symm⟩
  | some t => exact ⟨(h t).trace, rfl⟩

theorem outerTryBlock_trace (i : Nat) (c : CaseEnv) :
    ∃ r, (outerTryBlock i c).trace = Action.emit .BEFORE_CASE (some i) :: r := by
  rw [outerTryBlock]
  cases c.beforeCase with
  | none => exact ⟨(innerTry i c).trace, rfl⟩
  | some t => exact ⟨[], rfl⟩

/-- For every enabled test case, regardless of which hooks or bodies throw
and what they throw, the per-case routine's trace starts with the
current-index assignment, the driver start and the `BEFORE_CASE`
emission, in that order. -/
theorem runCase_enabled_prefix (i : Nat) (c : CaseEnv) (hEn : c.enabled = true) :
    ∃ rest, (runCase i c).trace = Action.setCurrentIndex i :: Action.driverStart i ::
      Action.emit .BEFORE_CASE (some i) :: rest := by
  obtain ⟨r1, h1⟩ := outerTryBlock_trace i c
  obtain ⟨r2, h2⟩ := tryCatch_trace_append (outerTryBlock i c) (btcHandler i)
  obtain ⟨r3, h3⟩ := seq_trace_append (tryCatch (outerTryBlock i c) (btcHandler i))
    ((afterCasePart i c).seq (RunOut.ok [.driverDestroy i]))
  refine ⟨r1 ++ r2 ++ r3, ?_⟩
  have h0 : (runCase i c).trace = [Action.setCurrentIndex i, Action.driverStart i] ++
      ((tryCatch (outerTryBlock i c) (btcHandler i)).seq
        ((afterCasePart i c).seq (RunOut.ok [.driverDestroy i]))).trace := by
    rw [runCase, hEn]
    rfl
  rw [h0, h3, h2, h1]
  simp

/-- C8 (amended): for every enabled test case the driver handle is started
before `BEFORE_CASE` is emitted for that case — unconditionally, whatever
the hooks, body or screenshot throw; and provided every value thrown
during the case's hook/body/screenshot sequence is an `Error` instance,
the handle is released (`destroyDriver` invoked) before the executor moves
past the case on every such exit path, including `BEFORE_CASE` hook
failure and body failure: the routine completes normally and its very
last action is the driver release.  When a non-Error is thrown the
routine aborts without releasing the driver: see the counterexample. -/
theorem c8_driver_guard (i : Nat) (c : CaseEnv) (hEn : c.enabled = true) :
    List.Sublist [Action.driverStart i, Action.emit .BEFORE_CASE (some i)]
      (runCase i c).trace ∧
    (c.errorsOnly = true →
      (runCase i c).escape = none ∧
      (runCase i c).trace.getLast? = some (Action.driverDestroy i) ∧
      Action.driverDestroy i ∈ (runCase i c).trace) := by
  constructor
  · obtain ⟨rest, hpre⟩ := runCase_enabled_prefix i c hEn
    rw [hpre]
    exact sublist_pair_cons3 ..
  · intro hAll
    rcases c with ⟨en, bc, body, sc, ac⟩
    dsimp only at hEn hAll
    subst hEn
    rw [CaseEnv.errorsOnly] at hAll
    simp only [Bool.and_eq_true] at hAll
    obtain ⟨⟨⟨h1, h2⟩, h3⟩, h4⟩ := hAll
    cases bc with
    | some t =>
      have hE : t.isError = true := h1
      cases ac with
      | none =>
        have htr : runCase i ⟨true, some t, body, sc, none⟩ =
            RunOut.ok [.setCurrentIndex i, .driverStart i, .emit .BEFORE_CASE (some i),
              .logError t.message, .caseSetDurationZero i, .driverDestroy i,
              .emit .AFTER_CASE (some i), .driverDestroy i] := by
          simp [runCase, outerTryBlock, btcHandler, afterCasePart, hE]
        rw [htr]
        exact ⟨rfl, rfl, by simp⟩
      | some u =>
        have hU : u.isError = true := h4
        have htr : runCase i ⟨true, some t, body, sc, some u⟩ =
            RunOut.ok [.setCurrentIndex i, .driverStart i, .emit .BEFORE_CASE (some i),
              .logError t.message, .caseSetDurationZero i, .driverDestroy i,
              .emit .AFTER_CASE (some i), .logError u.message, .driverDestroy i] := by
          simp [runCase, outerTryBlock, btcHandler, afterCasePart, hE, hU]
        rw [htr]
        exact ⟨rfl, rfl, by simp⟩
    | none =>
      cases body with
      | none =>
        cases ac with
        | none =>
          have htr : runCase i ⟨true, none, none, sc, none⟩ =
              RunOut.ok [.setCurrentIndex i, .driverStart i, .emit .BEFORE_CASE (some i),
                .caseStartNow i, .caseSetStatus i .SUCCESS, .caseEndNow i,
                .caseGenDuration i, .emit .AFTER_CASE (some i), .driverDestroy i] := by
            simp [runCase, outerTryBlock, innerTry, tcHandler, btcHandler, afterCasePart]
          rw [htr]
          exact ⟨rfl, rfl, by simp⟩
        | some u =>
          have hU : u.isError = true := h4
          have htr : runCase i ⟨true, none, none, sc, some u⟩ =
              RunOut.ok [.setCurrentIndex i, .driverStart i, .emit .BEFORE_CASE (some i),
                .caseStartNow i, .caseSetStatus i .SUCCESS, .caseEndNow i,
                .caseGenDuration i, .emit .AFTER_CASE (some i), .logError u.message,
                .driverDestroy i] := by
            simp [runCase, outerTryBlock, innerTry, tcHandler, btcHandler, afterCasePart, hU]
          rw [htr]
          exact ⟨rfl, rfl, by simp⟩
      | some t =>
        have hE : t.isError = true := h2
        cases sc with
        | none =>
          cases ac with
          | none =>
            have htr : runCase i ⟨true, none, some t, none, none⟩ =
                RunOut.ok [.setCurrentIndex i, .driverStart i, .emit .BEFORE_CASE (some i),
                  .caseStartNow i, .caseEndNow i, .caseGenDuration i,
                  .caseSetStatus i .FAILED, .caseSetException i t.message,
                  .caseSetScreenshot i (ssPath i), .runnerSetStatus .FAILED,
                  .logError t.message, .emit .AFTER_CASE (some i), .driverDestroy i] := by
              simp [runCase, outerTryBlock, innerTry, tcHandler, screenshotTry, btcHandler,
                afterCasePart, hE]
            rw [htr]
            exact ⟨rfl, rfl, by simp⟩
          | some u =>
            have hU : u.isError = true := h4
            have htr : runCase i ⟨true, none, some t, none, some u⟩ =
                RunOut.ok [.setCurrentIndex i, .driverStart i, .emit .BEFORE_CASE (some i),
                  .caseStartNow i, .caseEndNow i, .caseGenDuration i,
                  .caseSetStatus i .FAILED, .caseSetException i t.message,
                  .caseSetScreenshot i (ssPath i), .runnerSetStatus .FAILED,
                  .logError t.message, .emit .AFTER_CASE (some i), .logError u.message,
                  .driverDestroy i] := by
              simp [runCase, outerTryBlock, innerTry, tcHandler, screenshotTry, btcHandler,
                afterCasePart, hE, hU]
            rw [htr]
            exact ⟨rfl, rfl, by simp⟩
        | some v =>
          have hV : v.isError = true := h3
          cases ac with
          | none =>
            have htr : runCase i ⟨true, none, some t, some v, none⟩ =
                RunOut.ok [.setCurrentIndex i, .driverStart i, .emit .BEFORE_CASE (some i),
                  .caseStartNow i, .caseEndNow i, .caseGenDuration i,
                  .caseSetStatus i .FAILED, .caseSetException i t.message,
                  .logWarn v.message, .runnerSetStatus .FAILED,
                  .logError t.message, .emit .AFTER_CASE (some i), .driverDestroy i] := by
              simp [runCase, outerTryBlock, innerTry, tcHandler, screenshotTry, btcHandler,
                afterCasePart, hE, hV]
            rw [htr]
            exact ⟨rfl, rfl, by simp⟩
          | some u =>
            have hU : u.isError = true := h4
            have htr : runCase i ⟨true, none, some t, some v, some u⟩ =
                RunOut.ok [.setCurrentIndex i, .driverStart i, .emit .BEFORE_CASE (some i),
                  .caseStartNow i, .caseEndNow i, .caseGenDuration i,
                  .caseSetStatus i .FAILED, .caseSetException i t.message,
                  .logWarn v.message, .runnerSetStatus .FAILED,
                  .logError t.message, .emit .AFTER_CASE (some i), .logError u.message,
                  .driverDestroy i] := by
              simp [runCase, outerTryBlock, innerTry, tcHandler, screenshotTry, btcHandler,
                afterCasePart, hE, hV, hU]
            rw [htr]
            exact ⟨rfl, rfl, by simp⟩


/-- Witness for the C8 theorem at a concrete enabled, fully succeeding
case. -/
theorem c8_witness :
    List.Sublist [Action.driverStart 0, Action.emit .BEFORE_CASE (some 0)]
      (runCase 0 ⟨true, none, none, none, none⟩).trace ∧
    ((⟨true, none, none, none, none⟩ : CaseEnv).errorsOnly = true →
      (runCase 0 ⟨true, none, none, none, none⟩).escape = none ∧
      (runCase 0 ⟨true, none, none, none, none⟩).trace.getLast? =
        some (Action.driverDestroy 0) ∧
      Action.driverDestroy 0 ∈ (runCase 0 ⟨true, none, none, none, none⟩).trace) :=
  c8_driver_guard 0 ⟨true, none, none, none, none⟩ rfl

/-- C8 counterexample: a non-Error value thrown by the body escapes both
catch handlers before any `destroyDriver` call: the driver is started but
never released on this exit path. -/
theorem c8_counterexample :
    Action.driverStart 0 ∈ (runCase 0 c8cex).trace ∧
    Action.driverDestroy 0 ∉ (runCase 0 c8cex).trace ∧
    (runCase 0 c8cex).escape = some ⟨false, "tb-x"⟩ := by
  decide


theorem applyAction_preservesFailed (a : Action) (st : RunnerState)
    (h : preservesFailed a = true) (hF : st.status = TestStatus.FAILED) :
    (applyAction st a).status = TestStatus.FAILED := by
  cases a <;> simp_all [applyAction, preservesFailed]

theorem foldl_statusSafe (l : List Action) :
    ∀ st : RunnerState, statusSafe l = true → st.status = TestStatus.FAILED →
      (l.foldl applyAction st).status = TestStatus.FAILED := by
  induction l with
  | nil => intro st _ hF; exact hF
  | cons a rest ih =>
    intro st h hF
    rw [statusSafe, List.all_cons, Bool.and_eq_true] at h
    exact ih _ h.2 (applyAction_preservesFailed a st h.1 hF)

theorem statusSafe_seq {a b : RunOut} (ha : statusSafe a.trace = true)
    (hb : statusSafe b.trace = true) : statusSafe (a.seq b).trace = true := by
  rcases a with ⟨tra, esca⟩
  cases esca with
  | none =>
    rw [seq_none]
    show statusSafe (tra ++ b.trace) = true
    rw [statusSafe, List.all_append, Bool.and_eq_true]
    exact ⟨ha, hb⟩
  | some t => exact ha

theorem statusSafe_tryCatch {body : RunOut} {handler : Thrown → RunOut}
    (hb : statusSafe body.trace = true)
    (hh : ∀ t, statusSafe (handler t).trace = true) :
    statusSafe (tryCatch body handler).trace = true := by
  rcases body with ⟨tr, esc⟩
  cases esc with
  | none => exact hb
  | some t =>
    rw [tryCatch_some]
    show statusSafe (tr ++ (handler t).trace) = true
    rw [statusSafe, List.all_append, Bool.and_eq_true]
    exact ⟨hb, hh t⟩

theorem statusSafe_btcHandler (i : Nat) (t : Thrown) :
    statusSafe (btcHandler i t).trace = true := by
  rw [btcHandler]
  split <;> rfl

theorem statusSafe_screenshotTry (i : Nat) (sc : Option Thrown) :
    statusSafe (screenshotTry i sc).trace = true := by
  unfold screenshotTry
  apply statusSafe_tryCatch
  · cases sc <;> rfl
  · intro t
    split <;> rfl

theorem statusSafe_tcHandler (i : Nat) (c : CaseEnv) (t : Thrown) :
    statusSafe (tcHandler i c t).trace = true := by
  rw [tcHandler]
  split
  · exact statusSafe_seq rfl
      (statusSafe_seq (statusSafe_screenshotTry i c.screenshot) rfl)
  · rfl

theorem statusSafe_innerTry (i : Nat) (c : CaseEnv) :
    statusSafe (innerTry i c).trace = true := by
  rw [innerTry]
  apply statusSafe_tryCatch
  · cases c.body <;> rfl
  · intro t
    exact statusSafe_tcHandler i c t

theorem statusSafe_outerTryBlock (i : Nat) (c : CaseEnv) :
    statusSafe (outerTryBlock i c).trace = true := by
  rw [outerTryBlock]
  cases c.beforeCase with
  | some t => rfl
  | none => exact statusSafe_seq rfl (statusSafe_innerTry i c)

theorem statusSafe_afterCasePart (i : Nat) (c : CaseEnv) :
    statusSafe (afterCasePart i c).trace = true := by
  rw [afterCasePart]
  apply statusSafe_tryCatch
  · cases c.afterCase <;> rfl
  · intro t
    split <;> rfl

theorem statusSafe_runCase (i : Nat) (c : CaseEnv) :
    statusSafe (runCase i c).trace = true := by
  rw [runCase]
  split
  · exact statusSafe_seq rfl
      (statusSafe_seq
        (statusSafe_tryCatch (statusSafe_outerTryBlock i c)
          (fun t => statusSafe_btcHandler i t))
        (statusSafe_seq (statusSafe_afterCasePart i c) rfl))
  · rfl

theorem statusSafe_runCasesFrom (cs : List CaseEnv) :
    ∀ i : Nat, statusSafe (runCasesFrom i cs).trace = true := by
  induction cs with
  | nil => intro i; rfl
  | cons c rest ih =>
    intro i
    exact statusSafe_seq (statusSafe_runCase i c) (ih (i + 1))

theorem statusSafe_afterSuitePart (e : SuiteEnv) :
    statusSafe (afterSuitePart e).trace = true := by
  rw [afterSuitePart]
  apply statusSafe_tryCatch
  · cases e.afterSuite <;> rfl
  · intro t
    split <;> rfl

/-- Every suite-executor trace starts with the runner's `startNow` and
continues with actions none of which can revert a `FAILED` status. -/
theorem runSuite_head (e : SuiteEnv) :
    ∃ rest, (runSuite e).trace = Action.runnerStartNow :: rest ∧
      statusSafe rest = true := by
  rw [runSuite]
  cases e.beforeSuite with
  | some t =>
    cases ht : t.isError with
    | false => exact ⟨[.emit .BEFORE_SUITE none], by simp [ht], rfl⟩
    | true =>
      exact ⟨[.emit .BEFORE_SUITE none, .logError t.message, .runnerEndNow,
        .runnerGenDuration], by simp [ht], rfl⟩
  | none =>
    refine ⟨Action.emit .BEFORE_SUITE none ::
      ((runCasesFrom 0 e.cases).seq (afterSuitePart e)).trace, by simp, ?_⟩
    have hs := statusSafe_seq (statusSafe_runCasesFrom e.cases 0)
      (statusSafe_afterSuitePart e)
    rw [statusSafe, List.all_cons, Bool.and_eq_true]
    exact ⟨rfl, hs⟩

/-- C9: once the Runner's status has been set to `FAILED` at some point of
a suite run, it is still `FAILED` at every subsequent point of that run:
for every decomposition of the executor's trace into a prefix, a middle
segment and a suffix, if folding the prefix yields a `FAILED` runner
status then folding the prefix extended by the middle segment — i.e. the
state at any later point of the execution — still yields `FAILED`. -/
theorem c9_failed_sticky (e : SuiteEnv) (pre mid post : List Action)
    (hsplit : (runSuite e).trace = pre ++ mid ++ post)
    (hF : (stateAfter e.cases.length pre).status = TestStatus.FAILED) :
    (stateAfter e.cases.length (pre ++ mid)).status = TestStatus.FAILED := by
  obtain ⟨rest, htr, hsafe⟩ := runSuite_head e
  cases pre with
  | nil =>
    have h0 : (stateAfter e.cases.length []).status = TestStatus.NOT_STARTED := rfl
    rw [h0] at hF
    exact TestStatus.noConfusion hF
  | cons a pre2 =>
    rw [htr] at hsplit
    injection hsplit with h1 h2
    have hmid : statusSafe mid = true := by
      rw [h2, statusSafe] at hsafe
      simp only [List.append_eq, List.all_append, Bool.and_eq_true] at hsafe
      exact hsafe.1.2
    show ((a :: pre2 ++ mid).foldl applyAction (initState e.cases.length)).status =
      TestStatus.FAILED
    rw [show a :: pre2 ++ mid = (a :: pre2) ++ mid from rfl, List.foldl_append]
    exact foldl_statusSafe mid _ hmid hF

/-- Witness for the C9 theorem: a run whose case body throws an `Error`;
the trace prefix of length 12 ends just after the `FAILED` assignment, and
at the intermediate point three actions later the Runner still reports
`FAILED`. -/
theorem c9_witness :
    (stateAfter c9env.cases.length ((runSuite c9env).trace.take 12 ++
      ((runSuite c9env).trace.drop 12).take 3)).status = TestStatus.FAILED :=
  c9_failed_sticky c9env ((runSuite c9env).trace.take 12)
    (((runSuite c9env).trace.drop 12).take 3) ((runSuite c9env).trace.drop 15)
    (by decide) (by decide)

end Codewave
